import Mathlib

/-!
Shallow embedding of `pyflashair.py`, a client for the Toshiba FlashAir
SD-card HTTP file-access protocol, together with proofs about its
directory-listing decoder, attribute/date-time codec, recursive tree
walker and sync engine.

Modelling conventions:
* Python `int` is `Int` (unbounded, two's-complement bitwise semantics via
  `Int.land`; Python `>>`/`<<` are `>>>`/`<<<` with a `Nat` shift count,
  which agree with Python's floor-shift on all inputs used here).
* Python `str` is `List Char`; string literals enter via `String.data`.
* A raised Python exception is an `Except`-style error value; the Python
  exception classes that can occur in the modelled code are listed in
  `PyError`.
* The local filesystem is an association list from path to entry, and the
  remote card is a tree of listing records (each node bundles the record
  shown in its parent's listing, the file contents the card would serve,
  and the child listing the card would serve).
-/

namespace Pyflashair

/-- Python exception classes that the modelled code can raise:
`int(...)` and `datetime.datetime(...)` raise `ValueError` (as does
`Sync`'s explicit `raise ValueError`), sequence indexing out of range
raises `IndexError`, a failed `assert` raises `AssertionError`, and
`open(path, 'wb')` on an existing directory raises `IsADirectoryError`. -/
inductive PyError where
  | valueError
  | indexError
  | assertionError
  | isADirectoryError
deriving DecidableEq

/-- `Attributes = collections.namedtuple('Attributes', 'archive dir volume system hidden ro')`
(pyflashair.py line 25). Each item is a boolean. -/
structure Attributes where
  archive : Bool
  dir : Bool
  volume : Bool
  system : Bool
  hidden : Bool
  ro : Bool
deriving DecidableEq

/-- `FlashAir._DecodeAttributes` (pyflashair.py lines 63-73):
each flag is `bool(attr & (1 << k))` for its bit `k`. -/
def _DecodeAttributes (attr : Int) : Attributes :=
  { archive := decide (Int.land attr (Int.ofNat (1 <<< 5)) ≠ 0)
    dir := decide (Int.land attr (Int.ofNat (1 <<< 4)) ≠ 0)
    volume := decide (Int.land attr (Int.ofNat (1 <<< 3)) ≠ 0)
    system := decide (Int.land attr (Int.ofNat (1 <<< 2)) ≠ 0)
    hidden := decide (Int.land attr (Int.ofNat (1 <<< 1)) ≠ 0)
    ro := decide (Int.land attr (Int.ofNat (1 <<< 0)) ≠ 0) }

/-- The value carried by a Python `datetime.datetime` object (date and
time fields; the modelled program never sets microseconds or tzinfo). -/
structure DateTime where
  year : Int
  month : Int
  day : Int
  hour : Int
  minute : Int
  second : Int
deriving DecidableEq

/-- CPython's leap-year rule (`datetime._is_leap`). -/
def isLeap (y : Int) : Bool := y % 4 == 0 && (y % 100 != 0 || y % 400 == 0)

/-- CPython's `datetime._days_in_month` for month `1..12`. -/
def daysInMonth (y m : Int) : Int :=
  if m == 2 then (if isLeap y then 29 else 28)
  else if m == 4 || m == 6 || m == 9 || m == 11 then 30
  else 31

/-- The `datetime.datetime(year, month, day, hour, minute, second)`
constructor: validates every field against CPython's documented ranges and
raises `ValueError` when any is out of range; it never clamps. -/
def datetimeDatetime (y mo d h mi s : Int) : Except PyError DateTime :=
  if 1 ≤ y ∧ y ≤ 9999 ∧
     1 ≤ mo ∧ mo ≤ 12 ∧
     1 ≤ d ∧ d ≤ daysInMonth y mo ∧
     0 ≤ h ∧ h ≤ 23 ∧
     0 ≤ mi ∧ mi ≤ 59 ∧
     0 ≤ s ∧ s ≤ 59 then
    .ok ⟨y, mo, d, h, mi, s⟩
  else
    .error .valueError

/-- `year = ((d >> 9) & 0b1111111) + 1980` (pyflashair.py line 78). -/
def decodedYear (d : Int) : Int := Int.land (d >>> (9 : Nat)) 0b1111111 + 1980

/-- `month = (d >> 5) & 0b1111` (pyflashair.py line 79). -/
def decodedMonth (d : Int) : Int := Int.land (d >>> (5 : Nat)) 0b1111

/-- `day = d & 0b11111` (pyflashair.py line 80). -/
def decodedDay (d : Int) : Int := Int.land d 0b11111

/-- `hour = (t >> 11) & 0b11111` (pyflashair.py line 81). -/
def decodedHour (t : Int) : Int := Int.land (t >>> (11 : Nat)) 0b11111

/-- `minute = (t >> 5) & 0b111111` (pyflashair.py line 82). -/
def decodedMinute (t : Int) : Int := Int.land (t >>> (5 : Nat)) 0b111111

/-- `second = (t & 0b11111) * 2` (pyflashair.py line 83). -/
def decodedSecond (t : Int) : Int := Int.land t 0b11111 * 2

/-- `FlashAir._DecodeDateAndTime` (pyflashair.py lines 75-84): extract the
six packed fields and hand them to `datetime.datetime`. -/
def _DecodeDateAndTime (d t : Int) : Except PyError DateTime :=
  datetimeDatetime (decodedYear d) (decodedMonth d) (decodedDay d)
    (decodedHour t) (decodedMinute t) (decodedSecond t)

/-! ### Strings and the listing parser -/

/-- Python `str`, modelled as its sequence of characters. -/
abbrev PyStr := List Char

/-- `s.split(sep)` for a one-character separator and no maxsplit:
splits at every occurrence, keeping empty pieces. -/
def splitChar (sep : Char) : List Char → List (List Char)
  | [] => [[]]
  | c :: cs =>
    let r := splitChar sep cs
    if c = sep then [] :: r
    else
      match r with
      | [] => [[c]]
      | g :: gs => (c :: g) :: gs

/-- `s.rsplit(sep, maxsplit)` for a one-character separator: at most
`maxsplit` splits, taken from the right; remaining separators stay inside
the leftmost piece. -/
def rsplitChar (sep : Char) (maxsplit : Nat) (s : List Char) : List (List Char) :=
  let ps := splitChar sep s
  if ps.length ≤ maxsplit + 1 then ps
  else List.intercalate [sep] (ps.take (ps.length - maxsplit)) :: ps.drop (ps.length - maxsplit)

/-- The whitespace characters Python's `int(str)` strips. -/
def isPySpace (c : Char) : Bool :=
  c = ' ' || c = '\t' || c = '\n' || c = '\x0d' || c = '\x0b' || c = '\x0c'

/-- Strip leading and trailing whitespace, as Python `str.strip()`. -/
def stripWS (s : PyStr) : PyStr :=
  ((s.dropWhile isPySpace).reverse.dropWhile isPySpace).reverse

/-- Accumulate a run of decimal digits; `none` on any non-digit. -/
def parseDigitsAux : List Char → Nat → Option Nat
  | [], acc => some acc
  | c :: cs, acc =>
    if c.isDigit then parseDigitsAux cs (acc * 10 + (c.toNat - 48)) else none

/-- A nonempty all-digit string's value. -/
def parseUnsigned (l : List Char) : Option Nat :=
  match l with
  | [] => none
  | _ :: _ => parseDigitsAux l 0

/-- Python `int(str)`: strip whitespace, allow one optional sign, then a
nonempty run of decimal digits; anything else raises `ValueError`. -/
def pyInt (s : PyStr) : Except PyError Int :=
  match stripWS s with
  | '-' :: rest =>
    match parseUnsigned rest with
    | some n => .ok (-(Int.ofNat n))
    | none => .error .valueError
  | '+' :: rest =>
    match parseUnsigned rest with
    | some n => .ok (Int.ofNat n)
    | none => .error .valueError
  | t =>
    match parseUnsigned t with
    | some n => .ok (Int.ofNat n)
    | none => .error .valueError

/-- `File = collections.namedtuple('File', 'dir name size attr datetime')`
(pyflashair.py line 22). -/
structure File where
  dir : PyStr
  name : PyStr
  size : Int
  attr : Attributes
  datetime : DateTime
deriving DecidableEq

/-- Python `items[i]`: `IndexError` when `i` is out of range. -/
def getItem (items : List PyStr) (i : Nat) : Except PyError PyStr :=
  match items.get? i with
  | some v => .ok v
  | none => .error .indexError

/-- The loop body of `GetFileList` (pyflashair.py lines 92-98):
`items = line.rsplit(',', 6)` followed by building
`File(dir=items[0], name=items[1], size=int(items[2]),
attr=_DecodeAttributes(int(items[3])),
datetime=_DecodeDateAndTime(int(items[4]), int(items[5])))`, with
subexpressions evaluated in Python's left-to-right order so the first
failing one determines the raised exception. -/
def parseLine (line : PyStr) : Except PyError File := do
  let items := rsplitChar ',' 6 line
  let d ← getItem items 0
  let n ← getItem items 1
  let size ← pyInt (← getItem items 2)
  let attr ← pyInt (← getItem items 3)
  let dv ← pyInt (← getItem items 4)
  let tv ← pyInt (← getItem items 5)
  let dt ← _DecodeDateAndTime dv tv
  return ⟨d, n, size, _DecodeAttributes attr, dt⟩

/-- The `for line in lines[1:]` loop of `GetFileList`: accumulate a
`File` per line; the first raised exception aborts the whole loop and the
locally built `results` list is discarded. -/
def parseLines : List PyStr → Except PyError (List File)
  | [] => .ok []
  | l :: ls =>
    match parseLine l with
    | .error e => .error e
    | .ok f =>
      match parseLines ls with
      | .error e => .error e
      | .ok fs => .ok (f :: fs)

/-- `FlashAir.GetFileList` (pyflashair.py lines 86-99) applied to the
stripped response lines: `lines[0]` raises `IndexError` on an empty
response, `assert lines[0] == 'WLANSD_FILELIST'` raises `AssertionError`
on a wrong header, then each following line is parsed. -/
def GetFileList (lines : List PyStr) : Except PyError (List File) :=
  match lines with
  | [] => .error .indexError
  | l0 :: rest =>
    if l0 = "WLANSD_FILELIST".data then parseLines rest
    else .error .assertionError

/-- A data line the spec calls malformed: fewer than 6 fields after the
bounded right split, or a numeric field (index 2..5) that `int()`
rejects. -/
def malformedLine (line : PyStr) : Bool :=
  let items := rsplitChar ',' 6 line
  decide (items.length < 6) ||
    (match items.get? 2 with
     | some s => match pyInt s with | .error _ => true | .ok _ => false
     | none => true) ||
    (match items.get? 3 with
     | some s => match pyInt s with | .error _ => true | .ok _ => false
     | none => true) ||
    (match items.get? 4 with
     | some s => match pyInt s with | .error _ => true | .ok _ => false
     | none => true) ||
    (match items.get? 5 with
     | some s => match pyInt s with | .error _ => true | .ok _ => false
     | none => true)

/-- An `Except` computation none of whose error outcomes is an
`AssertionError`: only `ValueError` or `IndexError` can come out. This is
what the spec's `ParseError` category corresponds to in the code. -/
def okErrors {α : Type} (x : Except PyError α) : Prop :=
  ∀ e, x = .error e → e = .valueError ∨ e = .indexError

/-! ### Local filesystem, remote tree, tree walker and sync engine -/

/-- A local filesystem entry: a regular file with its byte content, or a
directory. -/
inductive Entry where
  | file (content : List Nat)
  | dir
deriving DecidableEq

/-- The local filesystem: an association list from absolute path to
entry (earlier bindings shadow later ones). -/
abbrev FS := List (PyStr × Entry)

/-- Look up the entry at path `p`. -/
def lookupFS : FS → PyStr → Option Entry
  | [], _ => none
  | (k, v) :: rest, p => if k = p then some v else lookupFS rest p

/-- `os.path.exists(p)`. -/
def existsFS (fs : FS) (p : PyStr) : Bool := (lookupFS fs p).isSome

/-- `os.mkdir(p)` / creating–truncating a file at `p`: bind `p` to `e`,
shadowing any earlier binding. -/
def insertFS (fs : FS) (p : PyStr) (e : Entry) : FS := (p, e) :: fs

/-- `os.stat(p).st_size`: a regular file's size is its content length; a
directory's reported size is filesystem-dependent and modelled as the
common block size 4096 (no claim touches it). -/
def statSize : Entry → Int
  | .file content => Int.ofNat content.length
  | .dir => 4096

/-- `os.path.join(a, b)` (posixpath, the two-argument uses in `Sync`):
`b` if `b` is absolute, else `a` and `b` joined with `'/'`, with no
separator added when `a` is empty or already ends with `'/'`. -/
def pathJoin (a b : PyStr) : PyStr :=
  match b with
  | '/' :: _ => b
  | _ =>
    match a with
    | [] => b
    | _ => if a.getLast? = some '/' then a ++ b else a ++ '/' :: b

/-- Python `str.lower()` (ASCII case folding; the modelled device names
are ASCII). -/
def lowerStr (s : PyStr) : PyStr := s.map Char.toLower

/-- A node of the remote directory tree: the `File` record the card
reports in the parent listing, the raw bytes `_GetFile` would return for
the node's path, and the child listing `GetFileList` would return for
the node's path (relevant when the record's attributes mark a
directory). -/
inductive RNode where
  | mk (f : File) (content : List Nat) (children : List RNode)

/-- The state a `Sync` call threads: the local filesystem and the remote
paths fetched with `_GetFile` so far, in fetch order. -/
structure SState where
  fs : FS
  fetched : List PyStr

/-- The regular-file branch of `Sync` (pyflashair.py lines 134-144):
`fetch` becomes true when the local path does not exist or its stat size
differs from the record's size; a fetch downloads `remoteFile` and
overwrites `localFile` with the full returned content (`open(_, 'wb')`
on an existing directory raises `IsADirectoryError`). -/
def syncFileStep (f : File) (content : List Nat) (remoteFile localFile : PyStr)
    (s : SState) : SState × Option PyError :=
  let fetch :=
    match lookupFS s.fs localFile with
    | none => true
    | some e => decide (statSize e ≠ f.size)
  if fetch then
    match lookupFS s.fs localFile with
    | some .dir => (⟨s.fs, s.fetched ++ [remoteFile]⟩, some .isADirectoryError)
    | _ => (⟨insertFS s.fs localFile (.file content), s.fetched ++ [remoteFile]⟩, none)
  else (s, none)

/-- The `for f in files` loop of `Sync` (pyflashair.py lines 121-144).
For a directory record: `os.mkdir` when the local path is absent,
`assert os.path.isdir` otherwise (`AssertionError` when a plain file
occupies the path), then the recursive `self.Sync(remote_file,
local_file, force_lowercase)` call — inlined here as that call's
existence check followed by the loop over the child listing. For a file
record: `syncFileStep`. The first raised exception aborts the loop,
keeping the filesystem mutations made so far. -/
def syncNodes : List RNode → PyStr → PyStr → Bool → SState → SState × Option PyError
  | [], _, _, _, s => (s, none)
  | RNode.mk f content children :: rest, remoteDir, localDir, forceLower, s =>
    let remoteFile := pathJoin remoteDir f.name
    let localFile0 := pathJoin localDir f.name
    let localFile := if forceLower then lowerStr localFile0 else localFile0
    if f.attr.dir then
      match lookupFS s.fs localFile with
      | some (.file _) => (s, some .assertionError)
      | none =>
        let s1 : SState := ⟨insertFS s.fs localFile .dir, s.fetched⟩
        if existsFS s1.fs localFile then
          match syncNodes children remoteFile localFile forceLower s1 with
          | (s2, some e) => (s2, some e)
          | (s2, none) => syncNodes rest remoteDir localDir forceLower s2
        else (s1, some .valueError)
      | some .dir =>
        if existsFS s.fs localFile then
          match syncNodes children remoteFile localFile forceLower s with
          | (s2, some e) => (s2, some e)
          | (s2, none) => syncNodes rest remoteDir localDir forceLower s2
        else (s, some .valueError)
    else
      match syncFileStep f content remoteFile localFile s with
      | (s2, some e) => (s2, some e)
      | (s2, none) => syncNodes rest remoteDir localDir forceLower s2

/-- `FlashAir.Sync` (pyflashair.py lines 115-144) applied to the decoded
listing tree of `remoteDir`: `raise ValueError` unless `localDir`
exists, then run the per-record loop. -/
def Sync (nodes : List RNode) (remoteDir localDir : PyStr) (forceLower : Bool)
    (s : SState) : SState × Option PyError :=
  if existsFS s.fs localDir then syncNodes nodes remoteDir localDir forceLower s
  else (s, some .valueError)

/-- The local path `Sync` computes for record `f` under `localDir`:
`os.path.join(local_dir, f.name)`, lower-cased when `force_lowercase`. -/
def localPathOf (localDir : PyStr) (forceLower : Bool) (f : File) : PyStr :=
  if forceLower then lowerStr (pathJoin localDir f.name)
  else pathJoin localDir f.name

/-- Every local path the `Sync` recursion can create or write under a
listing tree: for each record its (optionally lower-cased) joined local
path, then recursively the paths beneath it. -/
def localPaths : List RNode → PyStr → Bool → List PyStr
  | [], _, _ => []
  | RNode.mk f _ children :: rest, localDir, forceLower =>
    localPathOf localDir forceLower f ::
      (localPaths children (localPathOf localDir forceLower f) forceLower ++
        localPaths rest localDir forceLower)

/-- Decimal digits of `n`, most significant first; the fuel argument
keeps the recursion structural so that it evaluates inside the kernel. -/
def natDigitsAux (fuel n : Nat) : List Char :=
  match fuel with
  | 0 => []
  | fuel + 1 =>
    if n < 10 then [Char.ofNat (48 + n)]
    else natDigitsAux fuel (n / 10) ++ [Char.ofNat (48 + n % 10)]

/-- Python `str` of a nonnegative integer. -/
def natStr (n : Nat) : PyStr := natDigitsAux (n + 1) n

/-- Python `'%d' % i`. -/
def intStr (i : Int) : PyStr :=
  match i with
  | .ofNat n => natStr n
  | .negSucc n => '-' :: natStr (n + 1)

/-- Left-pad with `'0'` to width `w`. -/
def padZero (w : Nat) (s : PyStr) : PyStr := List.replicate (w - s.length) '0' ++ s

/-- `str(datetime.datetime(...))` with zero microseconds (CPython
`datetime.__str__` = `isoformat(' ')`): `YYYY-MM-DD HH:MM:SS`. -/
def datetimeStr (dt : DateTime) : PyStr :=
  padZero 4 (intStr dt.year) ++ "-".data ++ padZero 2 (intStr dt.month) ++
    "-".data ++ padZero 2 (intStr dt.day) ++ " ".data ++
    padZero 2 (intStr dt.hour) ++ ":".data ++ padZero 2 (intStr dt.minute) ++
    ":".data ++ padZero 2 (intStr dt.second)

/-- The string built and printed for one record by `RecursiveFileList`
(pyflashair.py lines 104-110): two spaces of indentation per level, the
name, `'/'` for a directory or `' | %d bytes'` for a file, then
`' | %s' % f.datetime`. -/
def renderLine (levels : Nat) (f : File) : PyStr :=
  (List.replicate (levels * 2) ' ' ++ f.name ++
    (if f.attr.dir then "/".data
     else " | ".data ++ intStr f.size ++ " bytes".data)) ++
    " | ".data ++ datetimeStr f.datetime

/-- `FlashAir.RecursiveFileList` (pyflashair.py lines 101-113) on the
remote listing tree: the sequence of lines printed, in print order; for
each record the line is printed first, and for a directory record the
walk then descends into `directory + '/' + f.name` before the loop
continues with the remaining records. -/
def RecursiveFileList : List RNode → PyStr → Nat → List PyStr
  | [], _, _ => []
  | RNode.mk f _ children :: rest, directory, levels =>
    renderLine levels f ::
      ((if f.attr.dir then
          RecursiveFileList children (directory ++ '/' :: f.name) (levels + 1)
        else []) ++
        RecursiveFileList rest directory levels)

/-- Modelled from the spec: the depth-first pre-order flattening of the
remote tree that `listRecursive` demands — each record paired with its
depth, a directory entry emitted before its subtree, the whole subtree
before the next sibling, and siblings in listing order. -/
def preorderSpec : List RNode → Nat → List (Nat × File)
  | [], _ => []
  | RNode.mk f _ children :: rest, depth =>
    (depth, f) ::
      ((if f.attr.dir then preorderSpec children (depth + 1) else []) ++
        preorderSpec rest depth)

/-! ## Theorems -/

theorem ofNat_land (m n : Nat) :
    Int.land (Int.ofNat m) (Int.ofNat n) = Int.ofNat (m &&& n) := rfl

theorem ofNat_shr (m k : Nat) :
    (Int.ofNat m) >>> (k : Nat) = Int.ofNat (m >>> k) := rfl

theorem land_one_shl (a k : Nat) :
    decide (Int.land (Int.ofNat a) (Int.ofNat (1 <<< k)) ≠ 0) = a.testBit k := by
  rw [ofNat_land, Nat.one_shiftLeft, Nat.and_two_pow]
  cases hb : a.testBit k <;> simp

theorem testBit_mod64 (a k : Nat) (hk : k < 6) :
    (a % 64).testBit k = a.testBit k := by
  rw [show (64 : Nat) = 2 ^ 6 by norm_num, Nat.testBit_mod_two_pow]
  simp [hk]

theorem land_mask_shr (a s n : Nat) :
    Int.land ((Int.ofNat a) >>> (s : Nat)) (Int.ofNat (2 ^ n - 1)) =
      Int.ofNat (a / 2 ^ s % 2 ^ n) := by
  rw [ofNat_shr, ofNat_land, Nat.and_pow_two_sub_one_eq_mod,
    Nat.shiftRight_eq_div_pow]

/-- C1: for every pair of 16-bit integers `datePacked` and `timePacked`,
`_DecodeDateAndTime` extracts exactly
`year = ((d >> 9) & 0x7F) + 1980`, `month = (d >> 5) & 0xF`,
`day = d & 0x1F`, `hour = (t >> 11) & 0x1F`, `minute = (t >> 5) & 0x3F`,
`second = (t & 0x1F) * 2` (stated here in the equivalent div/mod
arithmetic form), and in particular the `datePacked` encoding year 2020,
month 3, day 15 together with the `timePacked` encoding hour 10,
minute 30, second 0 decodes to exactly those calendar values. -/
theorem decode_date_time_fields (d t : Nat)
    (hd : d < 2 ^ 16) (ht : t < 2 ^ 16) :
    decodedYear (Int.ofNat d) = Int.ofNat (d / 2 ^ 9 % 2 ^ 7 + 1980) ∧
    decodedMonth (Int.ofNat d) = Int.ofNat (d / 2 ^ 5 % 2 ^ 4) ∧
    decodedDay (Int.ofNat d) = Int.ofNat (d % 2 ^ 5) ∧
    decodedHour (Int.ofNat t) = Int.ofNat (t / 2 ^ 11 % 2 ^ 5) ∧
    decodedMinute (Int.ofNat t) = Int.ofNat (t / 2 ^ 5 % 2 ^ 6) ∧
    decodedSecond (Int.ofNat t) = Int.ofNat (t % 2 ^ 5 * 2) ∧
    _DecodeDateAndTime (Int.ofNat 20591) (Int.ofNat 21440) =
      .ok ⟨2020, 3, 15, 10, 30, 0⟩ := by
  refine ⟨?_, ?_, ?_, ?_, ?_, ?_, rfl⟩
  · show Int.land ((Int.ofNat d) >>> (9 : Nat)) 0b1111111 + 1980 = _
    rw [show (0b1111111 : Int) = Int.ofNat (2 ^ 7 - 1) from rfl, land_mask_shr]
    simp
  · show Int.land ((Int.ofNat d) >>> (5 : Nat)) 0b1111 = _
    rw [show (0b1111 : Int) = Int.ofNat (2 ^ 4 - 1) from rfl, land_mask_shr]
  · show Int.land (Int.ofNat d) 0b11111 = _
    rw [show (0b11111 : Int) = Int.ofNat (2 ^ 5 - 1) from rfl, ofNat_land,
      Nat.and_pow_two_sub_one_eq_mod]
  · show Int.land ((Int.ofNat t) >>> (11 : Nat)) 0b11111 = _
    rw [show (0b11111 : Int) = Int.ofNat (2 ^ 5 - 1) from rfl, land_mask_shr]
  · show Int.land ((Int.ofNat t) >>> (5 : Nat)) 0b111111 = _
    rw [show (0b111111 : Int) = Int.ofNat (2 ^ 6 - 1) from rfl, land_mask_shr]
  · show Int.land (Int.ofNat t) 0b11111 * 2 = _
    rw [show (0b11111 : Int) = Int.ofNat (2 ^ 5 - 1) from rfl, ofNat_land,
      Nat.and_pow_two_sub_one_eq_mod]
    simp [Int.ofNat_mul_out]

theorem decode_date_time_fields_witness :
    decodedDay (Int.ofNat 20591) = Int.ofNat (20591 % 2 ^ 5) ∧
    _DecodeDateAndTime (Int.ofNat 20591) (Int.ofNat 21440) =
      .ok ⟨2020, 3, 15, 10, 30, 0⟩ :=
  ⟨(decode_date_time_fields 20591 21440 (by norm_num) (by norm_num)).2.2.1,
   (decode_date_time_fields 20591 21440 (by norm_num)
     (by norm_num)).2.2.2.2.2.2⟩

/-- C2: for every attribute value, each of the six decoded flags equals
the corresponding bit of the input (`archive` = bit 5 down to `ro` =
bit 0), bits above bit 5 never affect any flag (decoding `a` and
`a % 64` agree), and the byte `0b100001` decodes to exactly
archive and read-only set. -/
theorem decode_attributes_bits (a : Nat) :
    ((_DecodeAttributes (Int.ofNat a)).archive = a.testBit 5 ∧
     (_DecodeAttributes (Int.ofNat a)).dir = a.testBit 4 ∧
     (_DecodeAttributes (Int.ofNat a)).volume = a.testBit 3 ∧
     (_DecodeAttributes (Int.ofNat a)).system = a.testBit 2 ∧
     (_DecodeAttributes (Int.ofNat a)).hidden = a.testBit 1 ∧
     (_DecodeAttributes (Int.ofNat a)).ro = a.testBit 0) ∧
    _DecodeAttributes (Int.ofNat a) = _DecodeAttributes (Int.ofNat (a % 64)) ∧
    _DecodeAttributes (Int.ofNat 0b100001) =
      ⟨true, false, false, false, false, true⟩ := by
  refine ⟨⟨land_one_shl a 5, land_one_shl a 4, land_one_shl a 3,
    land_one_shl a 2, land_one_shl a 1, land_one_shl a 0⟩, ?_, by decide⟩
  show Attributes.mk _ _ _ _ _ _ = Attributes.mk _ _ _ _ _ _
  simp only [Attributes.mk.injEq, land_one_shl]
  refine ⟨?_, ?_, ?_, ?_, ?_, ?_⟩ <;>
    rw [testBit_mod64] <;> omega

/-- C8: whenever the decoded month or day is outside the valid calendar
range (month not in 1..12, day not in 1..days-in-month), the decode fails
with `ValueError` from the `datetime.datetime` construction; the value is
never clamped into a valid date. -/
theorem decode_date_time_invalid (d t : Int)
    (h : decodedMonth d < 1 ∨ 12 < decodedMonth d ∨ decodedDay d < 1 ∨
      daysInMonth (decodedYear d) (decodedMonth d) < decodedDay d) :
    _DecodeDateAndTime d t = .error .valueError := by
  unfold _DecodeDateAndTime datetimeDatetime
  rw [if_neg]
  rintro ⟨h1, h2, h3, h4, h5, h6, h7⟩
  rcases h with h | h | h | h <;> omega

theorem decode_date_time_invalid_witness :
    _DecodeDateAndTime 31 0 = .error .valueError :=
  decode_date_time_invalid 31 0 (Or.inl (by decide))


theorem okErrors_bind {α β : Type} {x : Except PyError α}
    {f : α → Except PyError β} (hx : okErrors x)
    (hf : ∀ v, okErrors (f v)) : okErrors (x >>= f) := by
  intro e h
  cases x with
  | error a =>
    have h2 : (Except.error a : Except PyError β) = .error e := h
    injection h2 with hae
    exact hx e (by rw [hae])
  | ok v => exact hf v e h

theorem okErrors_ok {α : Type} (v : α) : okErrors (Except.ok v : Except PyError α) := by
  intro e h
  cases h

theorem getItem_error (items : List PyStr) (i : Nat) : okErrors (getItem items i) := by
  intro e h
  unfold getItem at h
  cases hx : items.get? i <;> rw [hx] at h <;> simp_all

theorem pyInt_error (s : PyStr) : okErrors (pyInt s) := by
  intro e h
  unfold pyInt at h
  split at h <;> split at h <;> simp_all

theorem decode_date_time_error (d t : Int) : okErrors (_DecodeDateAndTime d t) := by
  intro e h
  unfold _DecodeDateAndTime datetimeDatetime at h
  split at h <;> simp_all

theorem parseLine_error (l : PyStr) : okErrors (parseLine l) := by
  unfold parseLine
  apply okErrors_bind (getItem_error _ _); intro d
  apply okErrors_bind (getItem_error _ _); intro n
  apply okErrors_bind (getItem_error _ _); intro i2
  apply okErrors_bind (pyInt_error _); intro size
  apply okErrors_bind (getItem_error _ _); intro i3
  apply okErrors_bind (pyInt_error _); intro attr
  apply okErrors_bind (getItem_error _ _); intro i4
  apply okErrors_bind (pyInt_error _); intro dv
  apply okErrors_bind (getItem_error _ _); intro i5
  apply okErrors_bind (pyInt_error _); intro tv
  apply okErrors_bind (decode_date_time_error _ _); intro dt
  exact okErrors_ok _

theorem except_bind_ok {α β : Type} {x : Except PyError α}
    {f : α → Except PyError β} {b : β} (h : (x >>= f) = .ok b) :
    ∃ v, x = .ok v ∧ f v = .ok b := by
  cases x with
  | error a =>
    have h2 : (Except.error a : Except PyError β) = .ok b := h
    cases h2
  | ok v => exact ⟨v, rfl, h⟩

theorem getItem_ok (items : List PyStr) (i : Nat) (v : PyStr)
    (h : getItem items i = .ok v) : items.get? i = some v := by
  unfold getItem at h
  cases hx : items.get? i <;> rw [hx] at h <;> simp_all

theorem parseLine_ok_not_malformed (l : PyStr) (f : File)
    (h : parseLine l = .ok f) : malformedLine l = false := by
  unfold parseLine at h
  obtain ⟨d, hd0, h⟩ := except_bind_ok h
  obtain ⟨n, hn1, h⟩ := except_bind_ok h
  obtain ⟨i2, hg2, h⟩ := except_bind_ok h
  obtain ⟨s2, hp2, h⟩ := except_bind_ok h
  obtain ⟨i3, hg3, h⟩ := except_bind_ok h
  obtain ⟨s3, hp3, h⟩ := except_bind_ok h
  obtain ⟨i4, hg4, h⟩ := except_bind_ok h
  obtain ⟨s4, hp4, h⟩ := except_bind_ok h
  obtain ⟨i5, hg5, h⟩ := except_bind_ok h
  obtain ⟨s5, hp5, h⟩ := except_bind_ok h
  have h2 := getItem_ok _ _ _ hg2
  have h3 := getItem_ok _ _ _ hg3
  have h4 := getItem_ok _ _ _ hg4
  have h5 := getItem_ok _ _ _ hg5
  have hlen : ¬ (rsplitChar ',' 6 l).length < 6 := by
    intro hc
    rw [List.get?_eq_none.mpr (by omega)] at h5
    cases h5
  unfold malformedLine
  simp only [h2, h3, h4, h5, hp2, hp3, hp4, hp5]
  simp [hlen]

theorem parseLines_error (ls : List PyStr) : okErrors (parseLines ls) := by
  induction ls with
  | nil => exact okErrors_ok _
  | cons a ls ih =>
    intro e h
    unfold parseLines at h
    cases hp : parseLine a with
    | error e1 =>
      rw [hp] at h
      simp at h
      subst h
      exact parseLine_error a e1 hp
    | ok f =>
      rw [hp] at h
      cases hq : parseLines ls with
      | error e2 =>
        rw [hq] at h
        simp at h
        subst h
        exact ih e2 hq
      | ok fs =>
        rw [hq] at h
        simp at h

theorem parseLines_malformed (ls : List PyStr) (l : PyStr) (hmem : l ∈ ls)
    (hmal : malformedLine l = true) : ∃ e, parseLines ls = .error e := by
  induction ls with
  | nil => cases hmem
  | cons a ls ih =>
    unfold parseLines
    cases hp : parseLine a with
    | error e1 => exact ⟨e1, rfl⟩
    | ok f =>
      rcases List.mem_cons.mp hmem with rfl | hmem2
      · rw [parseLine_ok_not_malformed _ _ hp] at hmal
        cases hmal
      · obtain ⟨e, he⟩ := ih hmem2
        refine ⟨e, ?_⟩
        rw [he]

/-- C3: a listing response whose data lines include a malformed line
(fewer than 6 fields after the bounded right split, or a non-numeric
size/attribute/date/time field) makes the whole `GetFileList` call fail
with a parse-type error (`ValueError`/`IndexError`, never the header
`AssertionError`), and no partial record list is ever returned. -/
theorem listing_all_or_nothing (tail : List PyStr) (l : PyStr)
    (hmem : l ∈ tail) (hmal : malformedLine l = true) :
    ∃ e, GetFileList ("WLANSD_FILELIST".data :: tail) = .error e ∧
      (e = .valueError ∨ e = .indexError) ∧
      ∀ fs, GetFileList ("WLANSD_FILELIST".data :: tail) ≠ .ok fs := by
  have hG : GetFileList ("WLANSD_FILELIST".data :: tail) = parseLines tail := by
    simp [GetFileList]
  obtain ⟨e, he⟩ := parseLines_malformed tail l hmem hmal
  refine ⟨e, by rw [hG, he], parseLines_error tail e he, ?_⟩
  intro fs hcontra
  rw [hG, he] at hcontra
  cases hcontra

theorem listing_all_or_nothing_witness :
    ∃ e, GetFileList ["WLANSD_FILELIST".data, "a,b".data] = .error e ∧
      (e = .valueError ∨ e = .indexError) ∧
      ∀ fs, GetFileList ["WLANSD_FILELIST".data, "a,b".data] ≠ .ok fs :=
  listing_all_or_nothing ["a,b".data] "a,b".data (List.mem_singleton.mpr rfl) rfl

/-- C4: a listing response whose first line is not the literal
`WLANSD_FILELIST` fails with the `assert`-raised `AssertionError` (the
spec's `ProtocolError`) and yields no record sequence; when the first
line is that literal, no `AssertionError` is ever raised. -/
theorem header_guard (l0 : PyStr) (rest : List PyStr) :
    (l0 ≠ "WLANSD_FILELIST".data →
      GetFileList (l0 :: rest) = .error .assertionError) ∧
    (l0 = "WLANSD_FILELIST".data →
      ∀ e, GetFileList (l0 :: rest) = .error e → e ≠ .assertionError) := by
  constructor
  · intro hne
    simp only [GetFileList]
    rw [if_neg hne]
  · intro heq e h hcontra
    subst hcontra
    subst heq
    simp [GetFileList] at h
    rcases parseLines_error rest _ h with h1 | h1 <;> cases h1

theorem header_guard_witness :
    GetFileList ["FOO".data] = .error .assertionError ∧
    PyError.indexError ≠ PyError.assertionError :=
  ⟨(header_guard "FOO".data []).1 (by decide),
   (header_guard "WLANSD_FILELIST".data ["a,b".data]).2 rfl .indexError (by rfl)⟩

/-- C5, refuted on the code: for the well-formed data line
`10,20,30,40,50,60,70` whose directory field is `10,20` (one embedded
comma) and whose four trailing numeric fields are comma-free,
`rsplit(',', 6)` makes one split too many, so the decoded record carries
directory `10` (not `10,20`), name `20` (not `30`), size 30 (not 40),
and the attribute/date/time fields are likewise shifted by one, the
final field `70` being dropped. -/
theorem rsplit_misassigns_embedded_comma :
    GetFileList ["WLANSD_FILELIST".data, "10,20,30,40,50,60,70".data] =
      .ok [⟨"10".data, "20".data, 30, ⟨true, false, true, false, false, false⟩,
        ⟨1980, 1, 18, 0, 1, 56⟩⟩] ∧
    "10".data ≠ "10,20".data ∧ "20".data ≠ "30".data ∧ (30 : Int) ≠ 40 :=
  ⟨rfl, by decide, by decide, by decide⟩

theorem lookup_insert_ne (fs : FS) (p q : PyStr) (e : Entry) (h : q ≠ p) :
    lookupFS (insertFS fs p e) q = lookupFS fs q := by
  show (if p = q then some e else lookupFS fs q) = lookupFS fs q
  exact if_neg (fun hc => h hc.symm)

theorem lookup_insert_self (fs : FS) (p : PyStr) (e : Entry) :
    lookupFS (insertFS fs p e) p = some e := by
  show (if p = p then some e else lookupFS fs p) = some e
  exact if_pos rfl

theorem existsFS_insert_self (fs : FS) (p : PyStr) (e : Entry) :
    existsFS (insertFS fs p e) p = true := by
  unfold existsFS
  rw [lookup_insert_self]
  rfl

theorem syncNodes_nil (rdir ldir : PyStr) (fold : Bool) (s : SState) :
    syncNodes [] rdir ldir fold s = (s, none) := by
  simp [syncNodes]

theorem syncNodes_cons_dir_conflict (f : File) (ct : List Nat)
    (ch rest : List RNode) (rdir ldir : PyStr) (fold : Bool) (s : SState)
    (c : List Nat) (hdir : f.attr.dir = true)
    (hlook : lookupFS s.fs (localPathOf ldir fold f) = some (.file c)) :
    syncNodes (RNode.mk f ct ch :: rest) rdir ldir fold s =
      (s, some .assertionError) := by
  unfold localPathOf at hlook
  simp only [syncNodes, hdir, if_true]
  rw [hlook]

theorem syncNodes_cons_dir_new (f : File) (ct : List Nat)
    (ch rest : List RNode) (rdir ldir : PyStr) (fold : Bool) (s : SState)
    (hdir : f.attr.dir = true)
    (hlook : lookupFS s.fs (localPathOf ldir fold f) = none) :
    syncNodes (RNode.mk f ct ch :: rest) rdir ldir fold s =
      match syncNodes ch (pathJoin rdir f.name) (localPathOf ldir fold f) fold
          ⟨insertFS s.fs (localPathOf ldir fold f) .dir, s.fetched⟩ with
      | (s2, some e) => (s2, some e)
      | (s2, none) => syncNodes rest rdir ldir fold s2 := by
  unfold localPathOf at hlook ⊢
  simp only [syncNodes, hdir, if_true]
  rw [hlook]
  rw [existsFS_insert_self]
  simp

theorem syncNodes_cons_dir_exists (f : File) (ct : List Nat)
    (ch rest : List RNode) (rdir ldir : PyStr) (fold : Bool) (s : SState)
    (hdir : f.attr.dir = true)
    (hlook : lookupFS s.fs (localPathOf ldir fold f) = some .dir) :
    syncNodes (RNode.mk f ct ch :: rest) rdir ldir fold s =
      match syncNodes ch (pathJoin rdir f.name) (localPathOf ldir fold f) fold s with
      | (s2, some e) => (s2, some e)
      | (s2, none) => syncNodes rest rdir ldir fold s2 := by
  have hex : existsFS s.fs (localPathOf ldir fold f) = true := by
    unfold existsFS
    rw [hlook]
    rfl
  unfold localPathOf at hlook hex ⊢
  simp only [syncNodes, hdir, if_true]
  rw [hlook, hex]
  simp

theorem syncNodes_cons_file (f : File) (ct : List Nat)
    (ch rest : List RNode) (rdir ldir : PyStr) (fold : Bool) (s : SState)
    (hdir : f.attr.dir = false) :
    syncNodes (RNode.mk f ct ch :: rest) rdir ldir fold s =
      match syncFileStep f ct (pathJoin rdir f.name) (localPathOf ldir fold f) s with
      | (s2, some e) => (s2, some e)
      | (s2, none) => syncNodes rest rdir ldir fold s2 := by
  unfold localPathOf
  simp only [syncNodes, hdir]
  simp

theorem syncFileStep_frame (f : File) (content : List Nat)
    (remoteFile localFile : PyStr) (s : SState) (p : PyStr) (hp : p ≠ localFile) :
    lookupFS (syncFileStep f content remoteFile localFile s).1.fs p = lookupFS s.fs p := by
  unfold syncFileStep
  cases heq : lookupFS s.fs localFile with
  | none =>
    simp only [heq]
    exact lookup_insert_ne _ _ _ _ hp
  | some e =>
    simp only [heq]
    by_cases hsz : statSize e ≠ f.size
    · cases e with
      | dir => simp [hsz]
      | file c =>
        simp [hsz]
        exact lookup_insert_ne _ _ _ _ hp
    · simp [hsz]

theorem syncNodes_frame_aux (N : Nat) : ∀ (nodes : List RNode), sizeOf nodes ≤ N →
    ∀ rdir ldir fold s p, p ∉ localPaths nodes ldir fold →
      lookupFS (syncNodes nodes rdir ldir fold s).1.fs p = lookupFS s.fs p := by
  induction N with
  | zero =>
    intro nodes hsz rdir ldir fold s p hp
    cases nodes with
    | nil => rw [syncNodes_nil]
    | cons a rest =>
      exfalso
      cases a
      simp at hsz
  | succ N ih =>
    intro nodes hsz rdir ldir fold s p hp
    cases nodes with
    | nil => rw [syncNodes_nil]
    | cons a rest =>
      obtain ⟨f, ct, ch⟩ := a
      have hch : sizeOf ch ≤ N := by
        simp at hsz
        omega
      have hrest : sizeOf rest ≤ N := by
        simp at hsz
        omega
      simp only [localPaths, List.mem_cons, List.mem_append, not_or] at hp
      obtain ⟨hp1, hp2, hp3⟩ := hp
      by_cases hdir : f.attr.dir = true
      · cases hlook : lookupFS s.fs (localPathOf ldir fold f) with
        | none =>
          rw [syncNodes_cons_dir_new f ct ch rest rdir ldir fold s hdir hlook]
          cases hrec : syncNodes ch (pathJoin rdir f.name) (localPathOf ldir fold f) fold
              ⟨insertFS s.fs (localPathOf ldir fold f) .dir, s.fetched⟩ with
          | mk s2 oerr =>
            have h1 : lookupFS s2.fs p = lookupFS s.fs p := by
              have h0 := ih ch hch (pathJoin rdir f.name) (localPathOf ldir fold f) fold
                ⟨insertFS s.fs (localPathOf ldir fold f) .dir, s.fetched⟩ p hp2
              rw [hrec] at h0
              rw [h0]
              exact lookup_insert_ne _ _ _ _ hp1
            cases oerr with
            | none =>
              have h2 := ih rest hrest rdir ldir fold s2 p hp3
              rw [h2, h1]
            | some e => exact h1
        | some entry =>
          cases entry with
          | file c =>
            rw [syncNodes_cons_dir_conflict f ct ch rest rdir ldir fold s c hdir hlook]
          | dir =>
            rw [syncNodes_cons_dir_exists f ct ch rest rdir ldir fold s hdir hlook]
            cases hrec : syncNodes ch (pathJoin rdir f.name) (localPathOf ldir fold f) fold s with
            | mk s2 oerr =>
              have h1 : lookupFS s2.fs p = lookupFS s.fs p := by
                have h0 := ih ch hch (pathJoin rdir f.name) (localPathOf ldir fold f) fold s p hp2
                rw [hrec] at h0
                exact h0
              cases oerr with
              | none =>
                have h2 := ih rest hrest rdir ldir fold s2 p hp3
                rw [h2, h1]
              | some e => exact h1
      · rw [syncNodes_cons_file f ct ch rest rdir ldir fold s (by
          cases hb : f.attr.dir
          · rfl
          · exact absurd hb hdir)]
        cases hstep : syncFileStep f ct (pathJoin rdir f.name) (localPathOf ldir fold f) s with
        | mk s2 oerr =>
          have h1 : lookupFS s2.fs p = lookupFS s.fs p := by
            have h0 := syncFileStep_frame f ct (pathJoin rdir f.name)
              (localPathOf ldir fold f) s p hp1
            rw [hstep] at h0
            exact h0
          cases oerr with
          | none =>
            have h2 := ih rest hrest rdir ldir fold s2 p hp3
            rw [h2, h1]
          | some e => exact h1

/-- C6: the regular-file branch of `Sync` issues the fetch-and-write if
and only if the local path is absent or the local entry's stat size
differs from the record's reported size; a fetch appends the remote path
to the fetch log and overwrites the local path with the full downloaded
content, while a size match leaves state and log untouched. In
particular, a full `Sync` over a remote file of size 10 with a matching
local file of size 10 issues no fetch and changes nothing, and with a
local file of size 8 it fetches and overwrites. -/
theorem sync_fetch_decision (f : File) (ct : List Nat)
    (remoteFile localFile : PyStr) (s : SState)
    (hnotdir : lookupFS s.fs localFile ≠ some .dir) :
    (((lookupFS s.fs localFile = none ∨
        (∃ e, lookupFS s.fs localFile = some e ∧ statSize e ≠ f.size)) →
      syncFileStep f ct remoteFile localFile s =
        (⟨insertFS s.fs localFile (.file ct), s.fetched ++ [remoteFile]⟩, none)) ∧
    ((∃ e, lookupFS s.fs localFile = some e ∧ statSize e = f.size) →
      syncFileStep f ct remoteFile localFile s = (s, none))) ∧
    Sync [RNode.mk ⟨"/r".data, "x".data, 10, ⟨false,false,false,false,false,false⟩,
        ⟨2020,1,1,0,0,0⟩⟩ (List.replicate 10 7) []]
      "/r".data "/l".data true
      ⟨[("/l".data, .dir), ("/l/x".data, .file (List.replicate 10 1))], []⟩ =
      (⟨[("/l".data, .dir), ("/l/x".data, .file (List.replicate 10 1))], []⟩, none) ∧
    Sync [RNode.mk ⟨"/r".data, "x".data, 10, ⟨false,false,false,false,false,false⟩,
        ⟨2020,1,1,0,0,0⟩⟩ (List.replicate 10 7) []]
      "/r".data "/l".data true
      ⟨[("/l".data, .dir), ("/l/x".data, .file (List.replicate 8 1))], []⟩ =
      (⟨[("/l/x".data, .file (List.replicate 10 7)),
         ("/l".data, .dir), ("/l/x".data, .file (List.replicate 8 1))],
        ["/r/x".data]⟩, none) := by
  refine ⟨⟨?_, ?_⟩,
    by simp +decide [Sync, syncNodes, syncFileStep, lookupFS, existsFS, insertFS, statSize, pathJoin, lowerStr],
    by simp +decide [Sync, syncNodes, syncFileStep, lookupFS, existsFS, insertFS, statSize, pathJoin, lowerStr]⟩
  · intro hfetch
    unfold syncFileStep
    cases heq : lookupFS s.fs localFile with
    | none => simp [heq]
    | some e =>
      have hne : statSize e ≠ f.size := by
        rcases hfetch with h | ⟨e2, he2, hne2⟩
        · rw [heq] at h
          cases h
        · rw [heq] at he2
          injection he2 with h2
          rw [h2]
          exact hne2
      cases e with
      | dir => exact absurd heq hnotdir
      | file c => simp [heq, hne]
  · rintro ⟨e, he, hsz⟩
    unfold syncFileStep
    rw [he]
    simp [hsz]

/-- C9: for a record marked a directory, when the local path is absent
`Sync` creates it (`os.mkdir`) and then recurses into it via `Sync` with
the same case-folding setting; when the local path holds a regular file,
`Sync` fails with the `assert os.path.isdir`-raised `AssertionError`,
leaving the state untouched and neither recursing nor overwriting. -/
theorem sync_dir_step (f : File) (ct : List Nat) (ch rest : List RNode)
    (rdir ldir : PyStr) (fold : Bool) (s : SState) (hdir : f.attr.dir = true) :
    (lookupFS s.fs (localPathOf ldir fold f) = none →
      syncNodes (RNode.mk f ct ch :: rest) rdir ldir fold s =
        (match Sync ch (pathJoin rdir f.name) (localPathOf ldir fold f) fold
            ⟨insertFS s.fs (localPathOf ldir fold f) .dir, s.fetched⟩ with
         | (s2, some e) => (s2, some e)
         | (s2, none) => syncNodes rest rdir ldir fold s2)) ∧
    (∀ c, lookupFS s.fs (localPathOf ldir fold f) = some (.file c) →
      syncNodes (RNode.mk f ct ch :: rest) rdir ldir fold s =
        (s, some .assertionError)) := by
  constructor
  · intro hlook
    rw [syncNodes_cons_dir_new f ct ch rest rdir ldir fold s hdir hlook]
    have hS : Sync ch (pathJoin rdir f.name) (localPathOf ldir fold f) fold
        ⟨insertFS s.fs (localPathOf ldir fold f) .dir, s.fetched⟩ =
        syncNodes ch (pathJoin rdir f.name) (localPathOf ldir fold f) fold
          ⟨insertFS s.fs (localPathOf ldir fold f) .dir, s.fetched⟩ := by
      unfold Sync
      rw [if_pos]
      exact existsFS_insert_self s.fs (localPathOf ldir fold f) .dir
    rw [hS]
  · intro c hlook
    exact syncNodes_cons_dir_conflict f ct ch rest rdir ldir fold s c hdir hlook

/-- C10: `Sync` never deletes, truncates or rewrites a local entry whose
path is not among the (case-folded) local paths named by the remote
records: any other path maps to the same entry after the call as before,
whether the call succeeds or aborts with an error. -/
theorem sync_frame (nodes : List RNode) (rdir ldir : PyStr) (fold : Bool)
    (s : SState) (p : PyStr) (hp : p ∉ localPaths nodes ldir fold) :
    lookupFS (Sync nodes rdir ldir fold s).1.fs p = lookupFS s.fs p := by
  unfold Sync
  split
  · exact syncNodes_frame_aux (sizeOf nodes) nodes le_rfl rdir ldir fold s p hp
  · rfl

/-- C7: the recursive walker emits exactly the depth-first pre-order
flattening of the remote tree, rendered line by line: each directory
entry appears before its subtree, a whole subtree before the next
sibling, and siblings in listing order; in particular a listing
`[a (directory with child c), b (file)]` prints `a`, then `c` at depth
1, then `b`. -/
theorem walker_preorder :
    (∀ (nodes : List RNode) (directory : PyStr) (levels : Nat),
      RecursiveFileList nodes directory levels =
        (preorderSpec nodes levels).map (fun p => renderLine p.1 p.2)) ∧
    (∀ (fa fb fc : File) (ca cb cc : List Nat) (directory : PyStr),
      fa.attr.dir = true → fb.attr.dir = false → fc.attr.dir = false →
      RecursiveFileList
          [RNode.mk fa ca [RNode.mk fc cc []], RNode.mk fb cb []] directory 0 =
        [renderLine 0 fa, renderLine 1 fc, renderLine 0 fb]) := by
  have hgen : ∀ (nodes : List RNode) (directory : PyStr) (levels : Nat),
      RecursiveFileList nodes directory levels =
        (preorderSpec nodes levels).map (fun p => renderLine p.1 p.2) := by
    intro nodes directory levels
    induction nodes, directory, levels using RecursiveFileList.induct with
    | case1 _ _ => simp [RecursiveFileList, preorderSpec]
    | case2 f content children rest directory levels ih1 ih2 =>
      simp [RecursiveFileList, preorderSpec, ih1, ih2]
      cases f.attr.dir <;> simp
  refine ⟨hgen, ?_⟩
  intro fa fb fc ca cb cc directory ha hb hc
  rw [hgen]
  simp [preorderSpec, ha, hb, hc]

theorem sync_fetch_decision_witness :
    syncFileStep
      ⟨"/r".data, "x".data, 10, ⟨false,false,false,false,false,false⟩, ⟨2020,1,1,0,0,0⟩⟩
      (List.replicate 10 7) "/r/x".data "/l/x".data
      ⟨[("/l".data, .dir), ("/l/x".data, .file (List.replicate 10 1))], []⟩ =
      (⟨[("/l".data, .dir), ("/l/x".data, .file (List.replicate 10 1))], []⟩, none) ∧
    syncFileStep
      ⟨"/r".data, "x".data, 10, ⟨false,false,false,false,false,false⟩, ⟨2020,1,1,0,0,0⟩⟩
      (List.replicate 10 7) "/r/x".data "/l/x".data
      ⟨[("/l".data, .dir), ("/l/x".data, .file (List.replicate 8 1))], []⟩ =
      (⟨insertFS [("/l".data, .dir), ("/l/x".data, .file (List.replicate 8 1))]
          "/l/x".data (.file (List.replicate 10 7)), ["/r/x".data]⟩, none) :=
  ⟨(sync_fetch_decision
      ⟨"/r".data, "x".data, 10, ⟨false,false,false,false,false,false⟩, ⟨2020,1,1,0,0,0⟩⟩
      (List.replicate 10 7) "/r/x".data "/l/x".data _ (by decide)).1.2
      ⟨.file (List.replicate 10 1), by decide, by decide⟩,
   (sync_fetch_decision
      ⟨"/r".data, "x".data, 10, ⟨false,false,false,false,false,false⟩, ⟨2020,1,1,0,0,0⟩⟩
      (List.replicate 10 7) "/r/x".data "/l/x".data _ (by decide)).1.1
      (Or.inr ⟨.file (List.replicate 8 1), by decide, by decide⟩)⟩

theorem sync_dir_step_witness :
    syncNodes
      [RNode.mk ⟨"/r".data, "a".data, 0, ⟨false,true,false,false,false,false⟩, ⟨2020,1,1,0,0,0⟩⟩ [] []]
      "/r".data "/l".data true
      ⟨[("/l".data, .dir), ("/l/a".data, .file [])], []⟩ =
      (⟨[("/l".data, .dir), ("/l/a".data, .file [])], []⟩, some .assertionError) :=
  (sync_dir_step _ [] [] []
    "/r".data "/l".data true ⟨[("/l".data, .dir), ("/l/a".data, .file [])], []⟩ rfl).2
    [] (by decide)

theorem sync_frame_witness :
    lookupFS (Sync
      [RNode.mk ⟨"/r".data, "x".data, 10, ⟨false,false,false,false,false,false⟩, ⟨2020,1,1,0,0,0⟩⟩
        (List.replicate 10 7) []]
      "/r".data "/l".data true
      ⟨[("/l".data, .dir), ("/l/keep".data, .file [1]),
        ("/l/x".data, .file (List.replicate 8 1))], []⟩).1.fs "/l/keep".data =
    lookupFS [("/l".data, .dir), ("/l/keep".data, .file [1]),
        ("/l/x".data, .file (List.replicate 8 1))] "/l/keep".data :=
  sync_frame _ _ _ _ _ _ (by simp +decide [localPaths, localPathOf, pathJoin, lowerStr])

theorem walker_preorder_witness :
    RecursiveFileList
      [RNode.mk ⟨"/r".data, "a".data, 0, ⟨false,true,false,false,false,false⟩, ⟨2020,1,1,0,0,0⟩⟩ []
        [RNode.mk ⟨"/r/a".data, "c".data, 3, ⟨false,false,false,false,false,false⟩, ⟨2020,1,2,0,0,0⟩⟩ [] []],
       RNode.mk ⟨"/r".data, "b".data, 7, ⟨false,false,false,false,false,false⟩, ⟨2020,1,3,0,0,0⟩⟩ [] []]
      "/r".data 0 =
      [renderLine 0 ⟨"/r".data, "a".data, 0, ⟨false,true,false,false,false,false⟩, ⟨2020,1,1,0,0,0⟩⟩,
       renderLine 1 ⟨"/r/a".data, "c".data, 3, ⟨false,false,false,false,false,false⟩, ⟨2020,1,2,0,0,0⟩⟩,
       renderLine 0 ⟨"/r".data, "b".data, 7, ⟨false,false,false,false,false,false⟩, ⟨2020,1,3,0,0,0⟩⟩] :=
  walker_preorder.2 _ _ _ _ _ _ "/r".data rfl rfl rfl

end Pyflashair
